import Mathlib

/-!
Verification development for the `chick` capability-based microkernel
(x86-64).  The Rust kernel sources are shallowly embedded: machine words
(`usize`, `u64`) become `Nat` with explicit masking where wrap-around or
truncation matters, raw pointers become `Nat` addresses, interior-mutable
memory becomes explicit state passed through the functions, and fallible
or aborting code returns an explicit outcome type.  Every definition
mirrors a concrete item of the Rust source, which is cited in its doc
comment.
-/

namespace Chick

/-- Object type tag of a capability, from `kernel/src/objects/mod.rs`
(`enum ObjType`, discriminants 0..9). -/
inductive ObjType where
  | NullObj
  | Untyped
  | CNode
  | Tcb
  | Frame
  | Endpoint
  | Reply
  | Monitor
  | Interrupt
  | VSpace
deriving DecidableEq, Repr

/-- Numeric discriminant of `ObjType` (its `#[repr(u8)]` value). -/
def ObjType.toNat : ObjType → Nat
  | .NullObj => 0
  | .Untyped => 1
  | .CNode => 2
  | .Tcb => 3
  | .Frame => 4
  | .Endpoint => 5
  | .Reply => 6
  | .Monitor => 7
  | .Interrupt => 8
  | .VSpace => 9

/-- Capability rights bit constants, from the `bitflags!` block in
`kernel/src/objects/mod.rs` (`struct CapRights: u8`).  Rights values are
carried as the underlying `u8` bit pattern. -/
def CapRights.NONE : Nat := 0

/-- Bit 0 of `CapRights` (`READ`). -/
def CapRights.READ : Nat := 1

/-- Bit 1 of `CapRights` (`WRITE`). -/
def CapRights.WRITE : Nat := 2

/-- Bit 2 of `CapRights` (`EXECUTE`). -/
def CapRights.EXECUTE : Nat := 4

/-- Bit 3 of `CapRights` (`GRANT`). -/
def CapRights.GRANT : Nat := 8

/-- Bit 4 of `CapRights` (`CONTROL`). -/
def CapRights.CONTROL : Nat := 16

/-- Bit 5 of `CapRights` (`SEND`). -/
def CapRights.SEND : Nat := 32

/-- Bit 6 of `CapRights` (`RECEIVE`). -/
def CapRights.RECEIVE : Nat := 64

/-- Address of a `CNodeEntry` cell.  In the kernel a slot is identified by
its memory address (`NonNull<CNodeEntry>`); the embedding uses a `Nat`. -/
abbrev Addr : Type := Nat

/-- Raw capability record, from `kernel/src/objects/mod.rs`
(`struct CapRaw`): two payload words, the physical address of the
referenced object, the type tag, the rights byte, and the two optional
MDB links (addresses of the previous/next slot in the derivation
chain). -/
structure CapRaw where
  arg1 : Nat
  arg2 : Nat
  paddr : Nat
  cap_type : ObjType
  rights : Nat
  mdb_prev : Option Addr
  mdb_next : Option Addr
deriving DecidableEq, Repr

/-- The all-zero capability produced by `CapRaw::default()`. -/
def CapRaw.default : CapRaw :=
  { arg1 := 0, arg2 := 0, paddr := 0, cap_type := .NullObj,
    rights := CapRights.NONE, mdb_prev := none, mdb_next := none }

/-- Counterpart of `CapRaw::default_with_type`. -/
def CapRaw.defaultWithType (t : ObjType) : CapRaw :=
  { CapRaw.default with cap_type := t }

/-- Kernel memory viewed as a map from slot addresses to their current
`CapRaw` contents (each `CNodeEntry` is a `Cell<CapRaw>`; `get`/`set` on
the cell become reads/updates of this map). -/
abbrev Heap : Type := Addr → CapRaw

/-- Pointwise update of one slot, the effect of `CNodeEntry::set`. -/
def hupd (h : Heap) (a : Addr) (c : CapRaw) : Heap :=
  fun x => if x = a then c else h x

/-- General-purpose registers of the x86-64 trap frame, in the exact
order of the `registers` array of `kernel/src/arch/x86_64/trapframe.rs`
("Registers in order: rax, rbx, rcx, rdx, rsi, rdi, rbp, r8-r15", the
same order in which `TrapFrame::restore` pops them). -/
inductive Reg where
  | rax | rbx | rcx | rdx | rsi | rdi | rbp
  | r8 | r9 | r10 | r11 | r12 | r13 | r14 | r15
deriving DecidableEq, Repr

/-- The 15-element `registers` array layout of `TrapFrame`: position `i`
holds the register `trapRegisterOrder[i]`. -/
def trapRegisterOrder : List Reg :=
  [.rax, .rbx, .rcx, .rdx, .rsi, .rdi, .rbp,
   .r8, .r9, .r10, .r11, .r12, .r13, .r14, .r15]

/-- Value of `REGISTERS_SIZE` in `trapframe.rs`. -/
def REGISTERS_SIZE : Nat := 15

/-- Register file of a trap frame: index in the `registers` array to
saved value.  Only indices `0..14` exist in the kernel. -/
abbrev Regs : Type := Nat → Nat

/-- Write of `TrapFrame::set_mr`: `self.registers[idx] = mr`.  The
function's `debug_assert!` bound is modelled separately as
`setMrPre`. -/
def setMr (r : Regs) (idx v : Nat) : Regs :=
  fun j => if j = idx then v else r j

/-- Precondition asserted by `TrapFrame::set_mr`
(`debug_assert!(idx > 0 && idx < REGISTERS_SIZE)`). -/
def setMrPre (idx : Nat) : Prop := 0 < idx ∧ idx < REGISTERS_SIZE

instance (idx : Nat) : Decidable (setMrPre idx) := by
  unfold setMrPre; infer_instance

/-- Read of `TrapFrame::get_mr` / `Tcb::get_mr`.  `trapframe.rs` only
declares the writer; the reader is invoked throughout the kernel
(`tcb.rs`, `endpoint.rs`, `nullcap.rs`) as the read of
`registers[idx]`. -/
def getMr (r : Regs) (idx : Nat) : Nat := r idx

/-- Message-register index constants of `kernel/src/objects/tcb.rs`
(`impl Tcb` for `x86_64`): `MR1 = 0`, commented "RDI. Capacity badge.". -/
def Tcb.MR1 : Nat := 0

/-- Index constant `Tcb::MR2 = 1`, commented "RSI. Message info tag.". -/
def Tcb.MR2 : Nat := 1

/-- Index constant `Tcb::MR3 = 9`, commented "R10.". -/
def Tcb.MR3 : Nat := 9

/-- Index constant `Tcb::MR4 = 10`, commented "R8.". -/
def Tcb.MR4 : Nat := 10

/-- Index constant `Tcb::MR5 = 11`, commented "R9.". -/
def Tcb.MR5 : Nat := 11

/-- Index constant `Tcb::MR6 = 12`, commented "R15.". -/
def Tcb.MR6 : Nat := 12

/-- System error codes, from `kernel/src/error.rs` (`enum SysError`). -/
inductive SysError where
  | None
  | CSpaceNotFound
  | CapabilityTypeError
  | LookupError
  | UnableToDerive
  | SlotNotEmpty
  | SlotEmpty
  | UnsupportedSyscallOp
  | VSpaceCapMapped
  | VSpaceCapNotMapped
  | VSpaceTableMiss
  | VSpaceSlotOccupied
  | VSpacePermissionError
  | InvalidValue
  | SizeTooSmall
  | OutOfMemory
  | FrameAlreadyMapped
  | FrameNotMapped
  | InvalidOperation
  | AlignmentError
  | RangeError
  | RevokeFailed
  | DeleteFailed
deriving DecidableEq, Repr

/-- Counterpart of the `mask!` macro of `kernel/src/macros.rs`:
`mask!(x) = bit!(x) - 1 = (1 << x) - 1`. -/
def maskBits (x : Nat) : Nat := 2 ^ x - 1

/-- Counterpart of the `alignup!` macro of `kernel/src/macros.rs`,
verbatim: `(($addr) + bit!($sz) - 1) & mask!($sz)`.  Note that the macro
ANDs with `mask!(sz)` (keeping the LOW bits) rather than with its
complement, so it does not align upward. -/
def alignup (addr sz : Nat) : Nat := (addr + 2 ^ sz - 1) &&& maskBits sz

/-- Value of `CNODE_ENTRY_BIT_SZ` in `kernel/src/objects/cnode.rs`:
`size_of::<CNodeEntry>()` is 64 (the `#[repr(align(32))]` `CapRaw` packs
three words, two bytes and two optional pointers into 42 payload bytes,
rounded to the 32-byte alignment), `next_power_of_two()` keeps 64, and
`trailing_zeros()` yields 6. -/
def CNODE_ENTRY_BIT_SZ : Nat := 6

/-- Byte size of one CNode slot (`CNODE_ENTRY_SZ`). -/
def CNODE_ENTRY_SZ : Nat := 64

/-- Value of `CNODE_DEPTH` in `kernel/src/objects/cnode.rs`. -/
def CNODE_DEPTH : Nat := 32

/-- Frame sizes, from `kernel/src/objects/frame.rs` (`enum FrameSize`,
`#[repr(u8)]` with discriminants 12/21/30). -/
inductive FrameSize where
  | Small
  | Large
  | Huge
deriving DecidableEq, Repr

/-- Counterpart of `FrameSize::bits` (the discriminant value). -/
def FrameSize.bits : FrameSize → Nat
  | .Small => 12
  | .Large => 21
  | .Huge => 30

/-- Counterpart of `FrameSize::from_bits`. -/
def FrameSize.from_bits (bits : Nat) : Option FrameSize :=
  match bits with
  | 12 => some .Small
  | 21 => some .Large
  | 30 => some .Huge
  | _ => none

/-- Counterpart of `UntypedObj`'s `CapRef::mint` in
`kernel/src/objects/untyped.rs`: `arg1` holds the device flag, `arg2`
holds `bit_sz & mask!(6)` (the free offset occupies the bits above). -/
def untypedMint (paddr bitSz : Nat) (isDevice : Bool) : CapRaw :=
  { CapRaw.defaultWithType .Untyped with
      paddr := paddr,
      arg1 := if isDevice then 1 else 0,
      arg2 := bitSz &&& maskBits 6,
      rights := CapRights.CONTROL }

/-- Accessor `bit_size` of an untyped capability
(`self.raw.get().arg2 & mask!(6)`). -/
def Untyped.bitSize (c : CapRaw) : Nat := c.arg2 &&& maskBits 6

/-- Accessor `free_offset` of an untyped capability (`arg2 >> 6`). -/
def Untyped.freeOffset (c : CapRaw) : Nat := c.arg2 >>> 6

/-- Accessor `is_device` of an untyped capability (`arg1 != 0`). -/
def Untyped.isDevice (c : CapRaw) : Bool := c.arg1 ≠ 0

/-- Effect of `set_free_offset`:
`arg2 = arg2 & mask!(6) | (off << 6)`. -/
def Untyped.setFreeOffsetArg2 (c : CapRaw) (off : Nat) : Nat :=
  c.arg2 &&& maskBits 6 ||| (off <<< 6)

/-- Counterpart of `object_alignment` in `kernel/src/objects/untyped.rs`
(Nat subtraction is saturating, like `usize::saturating_sub`). -/
def objectAlignment (t : ObjType) (bitSize : Nat) : Nat :=
  match t with
  | .Frame => bitSize
  | .VSpace => 12
  | .CNode => CNODE_ENTRY_BIT_SZ + (bitSize - CNODE_ENTRY_BIT_SZ)
  | .Tcb => 10
  | _ => bitSize

/-- Counterpart of `object_size` in `kernel/src/objects/untyped.rs`
(`MIN_BIT_SIZE = 4` for untypeds). -/
def objectSize (t : ObjType) (userBits : Nat) : Option Nat :=
  match t with
  | .Frame =>
    if userBits = 12 ∨ userBits = 21 ∨ userBits = 30
    then some (2 ^ userBits) else none
  | .VSpace => some (2 ^ 12)
  | .CNode =>
    if CNODE_ENTRY_BIT_SZ ≤ userBits ∧ userBits ≤ 48
    then some (2 ^ userBits) else none
  | .Tcb => some (2 ^ 10)
  | .Untyped =>
    if 4 ≤ userBits ∧ userBits ≤ 48 then some (2 ^ userBits) else none
  | _ => none

/-- Counterpart of `CNodeCap::mint` in `kernel/src/objects/cnode.rs`.
The function masks `radix_bits` and `guard_bits` to 6 bits, then runs
`assert!(radix_sz + guard_sz <= CNODE_DEPTH)`; an assertion failure
aborts the kernel, modelled as `none`.  On success `arg1` packs
`guard_sz` at offset 0 and `radix_sz` at offset 6, `arg2` holds the
guard value. -/
def cnodeMint (addr radixBits guardBits guard rights : Nat) :
    Option CapRaw :=
  let guardSz := guardBits &&& maskBits 6
  let radixSz := radixBits &&& maskBits 6
  if radixSz + guardSz ≤ CNODE_DEPTH then
    some { CapRaw.defaultWithType .CNode with
             paddr := addr,
             arg1 := guardSz ||| (radixSz <<< 6),
             arg2 := guard,
             rights := rights }
  else none

/-- Counterpart of `FrameCap::mint` in `kernel/src/objects/frame.rs`:
`arg1` packs the size bits at offset 0, the device flag at bit 6 and the
cache policy (Uncacheable = 2 for device memory, WriteBack = 0
otherwise) at offset 7. -/
def frameMint (paddr : Nat) (size : FrameSize) (isDevice : Bool)
    (rights : Nat) : CapRaw :=
  let cache : Nat := if isDevice then 2 else 0
  { CapRaw.defaultWithType .Frame with
      paddr := paddr,
      arg1 := size.bits ||| ((if isDevice then 1 else 0) <<< 6) |||
        (cache <<< 7),
      arg2 := 0,
      rights := rights }

/-- Counterpart of `VSpaceCap::mint` in `kernel/src/objects/vspace.rs`:
`arg1` holds the ASID at offset 0. -/
def vspaceMint (pml4Paddr asid rights : Nat) : CapRaw :=
  { CapRaw.defaultWithType .VSpace with
      paddr := pml4Paddr,
      arg1 := asid,
      arg2 := 0,
      rights := rights }

/-- Outcome of one iteration of the minting loop in `retype`. -/
inductive MintOut where
  | ok (c : CapRaw)
  | err (e : SysError)
  | panicked
deriving DecidableEq, Repr

/-- Body of the per-slot `match obj_type` in `retype`
(`kernel/src/objects/untyped.rs`), minting the capability for slot
index `i` at address `base_paddr + free_offset + i * obj_size`. -/
def retypeMintOne (basePaddr freeOffset objSize : Nat) (isDevice : Bool)
    (t : ObjType) (bitSize : Nat) (i : Nat) : MintOut :=
  let addr := basePaddr + freeOffset + i * objSize
  match t with
  | .Untyped => .ok (untypedMint addr bitSize isDevice)
  | .CNode =>
    let radixSz := bitSize - CNODE_ENTRY_BIT_SZ
    let guardBits := 64 - radixSz
    match cnodeMint addr radixSz guardBits 0 CapRights.CONTROL with
    | some c => .ok c
    | none => .panicked
  | .Frame =>
    match FrameSize.from_bits bitSize with
    | some size =>
      .ok (frameMint addr size isDevice
        (CapRights.READ ||| CapRights.WRITE))
    | none => .err .InvalidValue
  | .VSpace =>
    let asid := (addr >>> 12) &&& maskBits 16
    let asid := if asid = 0 then 1 else asid
    .ok (vspaceMint addr asid CapRights.CONTROL)
  | _ => .err .InvalidValue

/-- Result of `Untyped::retype`: on success, the new `arg2` of the
untyped capability (carrying the advanced free offset) together with
the capabilities written into the destination slots, in slot order;
otherwise the returned `SysError`, or an abort of the kernel
(`panicked`) when `CNodeCap::mint`'s assertion fails. -/
inductive RetypeResult where
  | ok (utArg2 : Nat) (minted : List CapRaw)
  | err (e : SysError)
  | panicked
deriving DecidableEq, Repr

/-- Minting loop of `retype` over slot indices `i, i+1, ...` with
`n` slots remaining. -/
def retypeLoop (basePaddr freeOffset objSize : Nat) (isDevice : Bool)
    (t : ObjType) (bitSize : Nat) : Nat → Nat → Option (List CapRaw) ⊕ SysError ⊕ Unit
  | _, 0 => .inl (some [])
  | i, n + 1 =>
    match retypeMintOne basePaddr freeOffset objSize isDevice t bitSize i with
    | .err e => .inr (.inl e)
    | .panicked => .inr (.inr ())
    | .ok c =>
      match retypeLoop basePaddr freeOffset objSize isDevice t bitSize (i + 1) n with
      | .inl (some l) => .inl (some (c :: l))
      | other => other

/-- Value of `usize::MAX` on the 64-bit target, the bound enforced by
`checked_mul`/`checked_add` in `retype`. -/
def USIZE_MAX : Nat := 2 ^ 64 - 1

/-- Counterpart of `Untyped::retype` in `kernel/src/objects/untyped.rs`.
`ut` is the current contents of the untyped capability's slot; `slots`
are the current contents of the destination slots.  Mirrors the source
step by step: the Null check on every destination, the device-type
restriction, alignment/size resolution, the (broken) `alignup!` of the
free offset, the `checked_mul`/`checked_add` overflow checks, the
`self.size() < required` OutOfMemory test, the per-slot minting loop and
the final `set_free_offset`. -/
def retype (ut : CapRaw) (t : ObjType) (bitSize : Nat)
    (slots : List CapRaw) : RetypeResult :=
  if slots.any (fun c => c.cap_type ≠ ObjType.NullObj) then
    .err .SlotNotEmpty
  else if Untyped.isDevice ut ∧ ¬ (t = .Frame ∨ t = .Untyped) then
    .err .InvalidValue
  else
    let alignBits := objectAlignment t bitSize
    match objectSize t bitSize with
    | none => .err .InvalidValue
    | some objSize =>
      let count := slots.length
      if count * objSize > USIZE_MAX then .err .InvalidValue
      else
        let freeOffset := alignup (Untyped.freeOffset ut) alignBits
        if freeOffset + count * objSize > USIZE_MAX then .err .InvalidValue
        else
          let required := freeOffset + count * objSize
          if 2 ^ Untyped.bitSize ut < required then .err .OutOfMemory
          else
            match retypeLoop ut.paddr freeOffset objSize
                (Untyped.isDevice ut) t bitSize 0 count with
            | .inl (some minted) =>
              .ok (Untyped.setFreeOffsetArg2 ut required) minted
            | .inl none => .err .InvalidValue
            | .inr (.inl e) => .err e
            | .inr (.inr _) => .panicked

/-- The scenario untyped: `2^16` bytes at paddr `0x1_0000`, not device,
free offset 0 (freshly minted). -/
def utScenario : CapRaw := untypedMint 0x10000 16 false

/-- Nullification performed inside `CNodeEntry::revoke`
(`kernel/src/objects/cnode.rs`): the local copy `raw` has its type,
rights, paddr and payload words erased and is written back; the MDB
links of the copy are untouched at this point. -/
def nullifyKeepLinks (c : CapRaw) : CapRaw :=
  { c with
      cap_type := .NullObj, rights := CapRights.NONE,
      paddr := 0, arg1 := 0, arg2 := 0 }

/-- Counterpart of `CNodeEntry::mdb_remove` in
`kernel/src/objects/cnode.rs`: the entry's record is read once; the
previous entry's `mdb_next` is redirected to the removed entry's next,
the next entry's `mdb_prev` (re-read after the first write) to the
removed entry's prev, and finally the originally read record is written
back with both links cleared. -/
def mdbRemove (h : Heap) (a : Addr) : Heap :=
  let raw := h a
  let h1 := match raw.mdb_prev with
    | some p => hupd h p { h p with mdb_next := raw.mdb_next }
    | none => h
  let h2 := match raw.mdb_next with
    | some q => hupd h1 q { h1 q with mdb_prev := raw.mdb_prev }
    | none => h1
  hupd h2 a { raw with mdb_prev := none, mdb_next := none }

/-- Loop body of `CNodeEntry::revoke`: while `cur` is a slot address,
read its record, remember its forward link, erase the capability
(keeping the links for `mdb_remove` to use) and unlink it.  The fuel
argument bounds the number of iterations of the Rust `while let` loop;
any fuel at least the length of the forward chain is enough. -/
def revokeAux : Heap → Option Addr → Nat → Heap
  | h, _, 0 => h
  | h, none, _ + 1 => h
  | h, some a, fuel + 1 =>
    let raw := h a
    let nxt := raw.mdb_next
    let h1 := hupd h a (nullifyKeepLinks raw)
    let h2 := mdbRemove h1 a
    revokeAux h2 nxt fuel

/-- Counterpart of `CNodeEntry::revoke`: iterate strictly forward from
`(h n).mdb_next`. -/
def revoke (h : Heap) (n : Addr) (fuel : Nat) : Heap :=
  revokeAux h ((h n).mdb_next) fuel

/-- The doubly-linked MDB chain shape of the data model (the
`MdbChainGhost::well_formed` specification in
`kernel/src/objects/cnode.rs`): starting from predecessor `pred`,
`cur` points at the successive elements of `l`, each element has its
`mdb_prev` pointing back at its predecessor, and the last element has
`mdb_next = None`. -/
def isMdbChain (h : Heap) : Addr → Option Addr → List Addr → Bool
  | _, cur, [] => decide (cur = none)
  | pred, cur, a :: l =>
    decide (cur = some a) && decide ((h a).mdb_prev = some pred) &&
      isMdbChain h a ((h a).mdb_next) l

/-- Concrete three-slot MDB instance for the C5 witness: slot 0 (an
untyped capability) heads a chain with two derived frame capabilities in
slots 1 and 2. -/
def c5Heap : Heap := fun a =>
  if a = 0 then
    { CapRaw.defaultWithType .Untyped with
        arg2 := 16, rights := CapRights.CONTROL, mdb_next := some 1 }
  else if a = 1 then
    { CapRaw.defaultWithType .Frame with
        paddr := 0x1000, rights := CapRights.READ,
        mdb_prev := some 0, mdb_next := some 2 }
  else if a = 2 then
    { CapRaw.defaultWithType .Frame with
        paddr := 0x2000, rights := CapRights.READ, mdb_prev := some 1 }
  else CapRaw.default

/-- Guard-bit count of a CNode capability
(`CNodeCap::guard_bits` in `kernel/src/objects/cnode.rs`:
`(arg1 >> GUARD_OFFSET) & mask(GUARD_BITS)` with offset 0, width 6). -/
def CNodeCap.guardBits (c : CapRaw) : Nat := c.arg1 &&& maskBits 6

/-- Radix-bit count of a CNode capability (`CNodeCap::radix_bits`:
`(arg1 >> RADIX_OFFSET) & mask(RADIX_BITS)` with offset 6, width 6). -/
def CNodeCap.radixBits (c : CapRaw) : Nat := (c.arg1 >>> 6) &&& maskBits 6

/-- Guard value of a CNode capability (`CNodeCap::guard`: all of
`arg2`). -/
def CNodeCap.guard (c : CapRaw) : Nat := c.arg2

/-- Counterpart of `CSpace::resolve_internal` in `kernel/src/cspace.rs`.
`mem` is the slot heap, `cur` the address of the current CNode
capability's slot (initially the CSpace root entry), `nBits` the
remaining depth.  One fuel unit per loop iteration; the concrete
theorems use fuel 33, an upper bound on iterations for any terminating
lookup of depth at most 32 (the Rust loop itself diverges on a
degenerate zero-level CNode cycle, which its `debug_assert!` flags).
Returns the found slot address and the remaining bits, or the error.
The slice produced by `as_object` has `2^radix_bits` entries, so the
`.get(index)` bound check is against that length.  Note the guard test
compares the extracted window with ALL of `arg2` (`cap.guard()` is not
masked), and runs even when `guard_bits = 0`. -/
def resolveInternal (mem : Heap) (cptr : Nat) :
    Addr → Nat → Nat → Except SysError (Addr × Nat)
  | _, _, 0 => .error .LookupError
  | cur, nBits, fuel + 1 =>
    let cap := mem cur
    if cap.cap_type ≠ ObjType.CNode then .error .CSpaceNotFound
    else
      let radixBits := CNodeCap.radixBits cap
      let guardBits := CNodeCap.guardBits cap
      let levelBits := radixBits + guardBits
      if guardBits > nBits then .error .LookupError
      else
        let shift := (nBits - guardBits) &&& maskBits 6
        let guard := if guardBits = 0 then 0
          else (cptr >>> shift) &&& maskBits guardBits
        if guard ≠ CNodeCap.guard cap then .error .LookupError
        else if levelBits > nBits then .error .LookupError
        else
          let index := if radixBits = 0 then 0
            else (cptr >>> (nBits - levelBits)) &&& maskBits radixBits
          if index < 2 ^ radixBits then
            let slotAddr := cap.paddr + index * CNODE_ENTRY_SZ
            if nBits = levelBits then .ok (slotAddr, 0)
            else if (mem slotAddr).cap_type ≠ ObjType.CNode then
              .ok (slotAddr, nBits - levelBits)
            else resolveInternal mem cptr slotAddr (nBits - levelBits) fuel
          else .error .SlotEmpty

/-- Counterpart of `CSpace::lookup_with_depth` in
`kernel/src/cspace.rs`: depth must be in `1..=32`, and a resolution
that leaves bits unconsumed is a `LookupError`. -/
def lookupWithDepth (mem : Heap) (root : Addr) (cptr depth : Nat) :
    Except SysError Addr :=
  if depth < 1 ∨ depth > CNODE_DEPTH then .error .InvalidValue
  else
    match resolveInternal mem cptr root depth 33 with
    | .error e => .error e
    | .ok (slot, rem) =>
      if rem ≠ 0 then .error .LookupError else .ok slot

/-- Address of the root CNode entry in the C7 scenario. -/
def c7RootEntry : Addr := 0x100

/-- Physical address of the root CNode's slot array (scenario 1). -/
def c7RootPaddr : Nat := 0x10000

/-- Physical address of the child CNode's slot array (scenario 1). -/
def c7ChildPaddr : Nat := 0x20000

/-- Scenario-1 CSpace: root CNode with radix 4, guard_bits 0 (arg1
packs guard_sz at offset 0 and radix_sz at offset 6, as `CNodeCap::mint`
does); slot 5 of the root holds a child CNode with radix 8,
guard_bits 4, guard `g`.  All other slots are Null. -/
def c7Mem (g : Nat) : Heap := fun a =>
  if a = c7RootEntry then
    { CapRaw.defaultWithType .CNode with
        paddr := c7RootPaddr, arg1 := 0 ||| (4 <<< 6), arg2 := 0,
        rights := CapRights.CONTROL }
  else if a = c7RootPaddr + 5 * CNODE_ENTRY_SZ then
    { CapRaw.defaultWithType .CNode with
        paddr := c7ChildPaddr, arg1 := 4 ||| (8 <<< 6), arg2 := g,
        rights := CapRights.CONTROL }
  else CapRaw.default

/-- The scenario capability pointer
`(0x5 << 28) | (0xA << 24) | (0x17 << 16)`. -/
def c7Cptr : Nat := (0x5 <<< 28) ||| (0xA <<< 24) ||| (0x17 <<< 16)

/-- Thread states, from `kernel/src/objects/tcb.rs`
(`enum ThreadState`). -/
inductive ThreadState where
  | Inactive
  | Ready
  | Running
  | Restart
  | BlockedOnReceive
  | BlockedOnSend
  | BlockedOnReply
  | BlockedOnNotification
  | RunningVm
  | Idle
deriving DecidableEq, Repr

/-- IPC staging fields of a TCB, from `kernel/src/objects/tcb.rs`
(`struct IpcState`). -/
structure IpcState where
  badge : Nat
  can_grant : Bool
  can_grant_reply : Bool
  is_call : Bool

/-- The slice of a `Tcb` (`kernel/src/objects/tcb.rs`) that the IPC
paths read and write: the trap-frame registers, the thread state, the
endpoint-queue links, the blocking object, the staged IPC fields and
the reply relationship.  TCBs are identified by `Nat` ids standing for
their `NonNull<Tcb>` pointers; an endpoint object pointer is likewise a
`Nat` address. -/
structure Tcb where
  regs : Regs
  state : ThreadState
  ep_next : Option Nat
  ep_prev : Option Nat
  blocking_object : Option Nat
  ipc_state : IpcState
  reply_to : Option Nat
  caller : Option Nat

/-- TCB store: id to record. -/
abbrev Tcbs : Type := Nat → Tcb

/-- Pointwise TCB update (a write through the TCB pointer). -/
def tupd (m : Tcbs) (i : Nat) (t : Tcb) : Tcbs :=
  fun j => if j = i then t else m j

/-- Endpoint states, from `kernel/src/objects/endpoint.rs`
(`enum EndpointState`). -/
inductive EndpointState where
  | Idle
  | Send
  | Recv
deriving DecidableEq, Repr

/-- State touched by `send_ipc`: the TCB store and one endpoint object
(`EndpointObj`: its state and the head/tail of its `TcbQueue`). -/
structure IpcMachine where
  tcbs : Tcbs
  epState : EndpointState
  epHead : Option Nat
  epTail : Option Nat

/-- Counterpart of `TcbQueue::append` (`kernel/src/objects/tcb.rs`):
clear the appended TCB's queue links, point `ep_prev` at the old tail,
link the old tail (or the head when empty) at it, and make it the
tail. -/
def queueAppend (m : IpcMachine) (tcbId : Nat) : IpcMachine :=
  let t := { m.tcbs tcbId with ep_next := none, ep_prev := m.epTail }
  let tcbs1 := tupd m.tcbs tcbId t
  match m.epTail with
  | some tail =>
    let tcbs2 := tupd tcbs1 tail { tcbs1 tail with ep_next := some tcbId }
    { m with tcbs := tcbs2, epTail := some tcbId }
  | none =>
    { m with tcbs := tcbs1, epHead := some tcbId, epTail := some tcbId }

/-- Counterpart of `TcbQueue::dequeue_head`
(`kernel/src/objects/tcb.rs`): unlink and return the head. -/
def dequeueHead (m : IpcMachine) : Option Nat × IpcMachine :=
  match m.epHead with
  | none => (none, m)
  | some hd =>
    let newHead := (m.tcbs hd).ep_next
    let m1 := { m with epHead := newHead }
    let m2 := match newHead with
      | some nh =>
        { m1 with tcbs := tupd m1.tcbs nh { m1.tcbs nh with ep_prev := none } }
      | none => { m1 with epTail := none }
    let m3 := { m2 with
        tcbs := tupd m2.tcbs hd
          { m2.tcbs hd with ep_next := none, ep_prev := none } }
    (some hd, m3)

/-- Counterpart of `do_ipc_transfer` (`kernel/src/objects/endpoint.rs`):
write the badge to the receiver's MR1, then for `i in 0..4` copy the
sender's register at index `Tcb::MR1 + i` to the receiver's register at
the same index.  (Since `Tcb::MR1 = 0`, the loop copies raw indices
0..3 — and its first iteration overwrites the badge just written.)
`can_grant` is read but unused (`let _ = can_grant`). -/
def doIpcTransfer (m : IpcMachine) (senderId receiverId badge : Nat)
    (canGrant : Bool) : IpcMachine :=
  let _ := canGrant
  let m1 := { m with
      tcbs := tupd m.tcbs receiverId
        { m.tcbs receiverId with
            regs := setMr (m.tcbs receiverId).regs Tcb.MR1 badge } }
  (List.range 4).foldl
    (fun mm i =>
      let v := getMr (mm.tcbs senderId).regs (Tcb.MR1 + i)
      { mm with
          tcbs := tupd mm.tcbs receiverId
            { mm.tcbs receiverId with
                regs := setMr (mm.tcbs receiverId).regs (Tcb.MR1 + i) v } })
    m1

/-- Counterpart of `setup_caller_cap` (`kernel/src/objects/endpoint.rs`):
block the caller on the reply and record the reply edge in both TCBs. -/
def setupCallerCap (m : IpcMachine) (callerId calleeId : Nat) : IpcMachine :=
  let m1 := { m with
      tcbs := tupd m.tcbs callerId
        { m.tcbs callerId with
            state := .BlockedOnReply, reply_to := some calleeId } }
  { m1 with
      tcbs := tupd m1.tcbs calleeId
        { m1.tcbs calleeId with caller := some callerId } }

/-- Modelled from the spec: `Executor::wake`.  `send_ipc` calls
`sched.get_mut().wake(receiver)` but `scheduler/executor.rs` under
`src/` declares no `wake` method; spec 4.4 defines it as "requires
state in Blocked{Send,Receive,Reply,Notification}; transitions to Ready
and enqueues", failing otherwise.  Only the TCB-state effect is
modelled here; the enqueue targets the per-core ready heap, outside
this machine. -/
def schedWake (m : IpcMachine) (tcbId : Nat) : IpcMachine :=
  match (m.tcbs tcbId).state with
  | .BlockedOnSend | .BlockedOnReceive | .BlockedOnReply
  | .BlockedOnNotification =>
    { m with
        tcbs := tupd m.tcbs tcbId { m.tcbs tcbId with state := .Ready } }
  | _ => m

/-- Outcome of `send_ipc`: the new machine state, or a kernel panic
(the `.expect` on an empty Recv queue). -/
inductive SendOut where
  | ok (m : IpcMachine)
  | panicked

/-- Counterpart of `send_ipc` (`kernel/src/objects/endpoint.rs`).
`epAddr` is the endpoint object's address (stored into
`blocking_object`); `schedPresent` tells whether `SCHEDULER.get()`
returns a scheduler (it does once `init_scheduler` has run). -/
def sendIpc (blocking doCall : Bool) (badge : Nat)
    (canGrant canGrantReply : Bool) (senderId epAddr : Nat)
    (schedPresent : Bool) (m : IpcMachine) : SendOut :=
  match m.epState with
  | .Idle | .Send =>
    if blocking then
      let s := { m.tcbs senderId with
          ipc_state :=
            { badge := badge, can_grant := canGrant,
              can_grant_reply := canGrantReply, is_call := doCall },
          state := .BlockedOnSend,
          blocking_object := some epAddr }
      let m1 := { m with tcbs := tupd m.tcbs senderId s }
      let m2 := queueAppend m1 senderId
      .ok { m2 with epState := .Send }
    else .ok m
  | .Recv =>
    match dequeueHead m with
    | (none, _) => .panicked
    | (some receiverId, m1) =>
      let m2 := if m1.epHead = none then { m1 with epState := .Idle } else m1
      let m3 := doIpcTransfer m2 senderId receiverId badge canGrant
      let m4 :=
        if doCall then
          if canGrant ∨ canGrantReply then
            setupCallerCap m3 senderId receiverId
          else
            { m3 with
                tcbs := tupd m3.tcbs senderId
                  { m3.tcbs senderId with state := .Inactive } }
        else m3
      let m5 := { m4 with
          tcbs := tupd m4.tcbs receiverId
            { m4.tcbs receiverId with state := .Running } }
      let m6 :=
        if schedPresent then
          schedWake
            { m5 with
                tcbs := tupd m5.tcbs receiverId
                  { m5.tcbs receiverId with state := .Inactive } }
            receiverId
        else m5
      .ok m6

/-- Register value of a TCB in a `send_ipc` outcome. -/
def SendOut.regOf (r : SendOut) (tcbId idx : Nat) : Option Nat :=
  match r with
  | .ok m => some ((m.tcbs tcbId).regs idx)
  | .panicked => none

/-- Thread state of a TCB in a `send_ipc` outcome. -/
def SendOut.threadStateOf (r : SendOut) (tcbId : Nat) :
    Option ThreadState :=
  match r with
  | .ok m => some (m.tcbs tcbId).state
  | .panicked => none

/-- Endpoint state in a `send_ipc` outcome. -/
def SendOut.endpointStateOf (r : SendOut) : Option EndpointState :=
  match r with
  | .ok m => some m.epState
  | .panicked => none

/-- Sender TCB A of the C2 scenario: MR3 (register index 9) holds 5,
every other register 0 (in particular A's register 0 is 0 ≠ 0x42). -/
def c2Sender : Tcb :=
  { regs := fun j => if j = 9 then 5 else 0,
    state := .Running, ep_next := none, ep_prev := none,
    blocking_object := none,
    ipc_state :=
      { badge := 0, can_grant := false, can_grant_reply := false,
        is_call := false },
    reply_to := none, caller := none }

/-- Receiver TCB B of the C2 scenario, blocked receiving on the
endpoint at address `0x500`; its MR3 slot holds 7. -/
def c2Receiver : Tcb :=
  { regs := fun j => if j = 9 then 7 else 0,
    state := .BlockedOnReceive, ep_next := none, ep_prev := none,
    blocking_object := some 0x500,
    ipc_state :=
      { badge := 0, can_grant := false, can_grant_reply := false,
        is_call := false },
    reply_to := none, caller := none }

/-- The C2 machine: endpoint in `Recv` with B (= id 1) as sole queued
receiver; A is id 0. -/
def c2Machine : IpcMachine :=
  { tcbs := fun i => if i = 0 then c2Sender else
      if i = 1 then c2Receiver else
      { c2Sender with state := .Inactive, regs := fun _ => 0 },
    epState := .Recv, epHead := some 1, epTail := some 1 }

/-- Cache policies, from `kernel/src/vspace.rs` (`enum CachePolicy`). -/
inductive CachePolicy where
  | WriteBack
  | WriteThrough
  | Uncacheable
  | WriteCombining
deriving DecidableEq, Repr

/-- VM attributes for a mapping, from `kernel/src/vspace.rs`
(`struct VMAttributes`); `rights` is the `VMRights` bit pattern
(READ = 1, WRITE = 2, EXECUTE = 4, KERNEL = 8). -/
structure VMAttr where
  rights : Nat
  cache : CachePolicy
  global : Bool
  user : Bool

/-- The physical-address mask of page-table entries,
`ADDR_MASK = 0x000F_FFFF_FFFF_F000` in
`kernel/src/arch/x86_64/vspace/entry.rs`. -/
def ADDR_MASK : Nat := 0x000FFFFFFFFFF000

/-- Counterpart of `build_flags` in
`kernel/src/arch/x86_64/vspace/entry.rs`: PRESENT (bit 0), WRITABLE
(bit 1) when the WRITE right is present, USER (bit 2), GLOBAL (bit 8),
NO_EXECUTE (bit 63) unless the EXECUTE right is present, and the cache
policy bits WRITE_THROUGH (bit 3) / CACHE_DISABLE (bit 4). -/
def buildFlags (a : VMAttr) : Nat :=
  let f := 1
  let f := if a.rights &&& 2 = 2 then f ||| 2 else f
  let f := if a.user then f ||| 4 else f
  let f := if a.global then f ||| 256 else f
  let f := if ¬ (a.rights &&& 4 = 4) then f ||| 2 ^ 63 else f
  match a.cache with
  | .WriteBack => f
  | .WriteThrough => f ||| 8
  | .Uncacheable => f ||| 16
  | .WriteCombining => f ||| 24

/-- Counterpart of `Pte::new_page`
(`kernel/src/arch/x86_64/vspace/entry.rs`): the masked physical address
ORed with the attribute flags. -/
def pteNewPage (paddr : Nat) (a : VMAttr) : Nat :=
  (paddr &&& ADDR_MASK) ||| buildFlags a

/-- Page-table errors, from `kernel/src/error.rs` (`enum VSpaceError`). -/
inductive VSpaceError where
  | InvalidVAddr
  | MisalignedPAddr
  | MisalignedVAddr
  | AlreadyMapped
  | NotMapped
  | MissingTable
  | UnsupportedPageSize
  | InvalidAsid
deriving DecidableEq, Repr

/-- Walk results, from `kernel/src/error.rs` (`enum WalkResult`; the
`Table` variant is never produced by `walk`). -/
inductive WalkResult where
  | MappedPage (paddr : Nat) (size : FrameSize) (level : Nat)
  | NotMapped (level : Nat)
deriving DecidableEq, Repr

/-- Page-table memory: table physical address and entry index (0..511)
to the raw 64-bit entry value.  `Table::from_paddr` adds the fixed
physical-memory window offset and dereferences; identifying tables by
their physical address models exactly that. -/
abbrev PTMem : Type := Nat → Nat → Nat

/-- Entry write (`*pte = ...` through the mapped table). -/
def ptUpd (m : PTMem) (t i v : Nat) : PTMem :=
  fun tx ix => if tx = t ∧ ix = i then v else m tx ix

/-- Counterpart of `PageTableEntry::is_present`
(`self.0 & PRESENT != 0`). -/
def entPresent (e : Nat) : Bool := e &&& 1 != 0

/-- Counterpart of `Pdpte::is_page` / `Pde::is_page`
(`is_present() && (self.0 & HUGE_PAGE != 0)`; HUGE_PAGE is bit 7). -/
def entIsPage (e : Nat) : Bool := entPresent e && (e &&& 128 != 0)

/-- Counterpart of `PageTableEntry::paddr` (`self.0 & ADDR_MASK`). -/
def entPaddr (e : Nat) : Nat := e &&& ADDR_MASK

/-- PML4 index of a virtual address (`vaddr_indices` in
`kernel/src/objects/vspace.rs`: `(vaddr >> 39) & 0x1FF`). -/
def pml4Idx (v : Nat) : Nat := (v >>> 39) &&& 0x1FF

/-- PDPT index (`(vaddr >> 30) & 0x1FF`). -/
def pdptIdx (v : Nat) : Nat := (v >>> 30) &&& 0x1FF

/-- Page-directory index (`(vaddr >> 21) & 0x1FF`). -/
def pdIdx (v : Nat) : Nat := (v >>> 21) &&& 0x1FF

/-- Page-table index (`(vaddr >> 12) & 0x1FF`). -/
def ptIdx (v : Nat) : Nat := (v >>> 12) &&& 0x1FF

/-- Counterpart of `VSpaceCap::is_canonical`: the top 17 bits of the
64-bit address are all zero or all one. -/
def isCanonical (v : Nat) : Bool := v >>> 47 == 0 || v >>> 47 == 0x1FFFF

/-- Counterpart of `VSpaceCap::walk` (`kernel/src/objects/vspace.rs`),
with the early returns rendered as nested conditionals. -/
def walk (m : PTMem) (root v : Nat) : Except VSpaceError WalkResult :=
  if isCanonical v then
    let pml4e := m root (pml4Idx v)
    if entPresent pml4e then
      let pdpte := m (entPaddr pml4e) (pdptIdx v)
      if entPresent pdpte then
        if entIsPage pdpte then .ok (.MappedPage (entPaddr pdpte) .Huge 3)
        else
          let pde := m (entPaddr pdpte) (pdIdx v)
          if entPresent pde then
            if entIsPage pde then .ok (.MappedPage (entPaddr pde) .Large 2)
            else
              let pte := m (entPaddr pde) (ptIdx v)
              if entPresent pte then
                .ok (.MappedPage (entPaddr pte) .Small 1)
              else .ok (.NotMapped 1)
          else .ok (.NotMapped 2)
      else .ok (.NotMapped 3)
    else .ok (.NotMapped 4)
  else .error .InvalidVAddr

/-- Counterpart of `VSpaceCap::map_4k` (`kernel/src/objects/vspace.rs`):
canonical and 4 KiB-alignment checks, traversal requiring present
non-page intermediate entries, absence of the target PTE, then the PTE
install (`invlpg` has no effect on the memory model). -/
def map4k (m : PTMem) (root v p : Nat) (attr : VMAttr) :
    Except VSpaceError PTMem :=
  if isCanonical v then
    if v &&& 4095 == 0 then
      if p &&& 4095 == 0 then
        let pml4e := m root (pml4Idx v)
        if entPresent pml4e then
          let pdpte := m (entPaddr pml4e) (pdptIdx v)
          if entPresent pdpte then
            if entIsPage pdpte then .error .AlreadyMapped
            else
              let pde := m (entPaddr pdpte) (pdIdx v)
              if entPresent pde then
                if entIsPage pde then .error .AlreadyMapped
                else
                  let ptT := entPaddr pde
                  let pte := m ptT (ptIdx v)
                  if entPresent pte then .error .AlreadyMapped
                  else .ok (ptUpd m ptT (ptIdx v) (pteNewPage p attr))
              else .error .MissingTable
          else .error .MissingTable
        else .error .MissingTable
      else .error .MisalignedPAddr
    else .error .MisalignedVAddr
  else .error .InvalidVAddr

/-- Counterpart of `VSpaceCap::unmap` (`kernel/src/objects/vspace.rs`):
traverse to the leaf, invalidate it (write `Pte::invalid()`, i.e. 0)
and return the freed physical address and size together with the new
memory. -/
def unmap (m : PTMem) (root v : Nat) :
    Except VSpaceError (Nat × FrameSize × PTMem) :=
  if isCanonical v then
    let pml4e := m root (pml4Idx v)
    if entPresent pml4e then
      let pdptT := entPaddr pml4e
      let pdpte := m pdptT (pdptIdx v)
      if entPresent pdpte then
        if entIsPage pdpte then
          .ok (entPaddr pdpte, .Huge, ptUpd m pdptT (pdptIdx v) 0)
        else
          let pdT := entPaddr pdpte
          let pde := m pdT (pdIdx v)
          if entPresent pde then
            if entIsPage pde then
              .ok (entPaddr pde, .Large, ptUpd m pdT (pdIdx v) 0)
            else
              let ptT := entPaddr pde
              let pte := m ptT (ptIdx v)
              if entPresent pte then
                .ok (entPaddr pte, .Small, ptUpd m ptT (ptIdx v) 0)
              else .error .NotMapped
          else .error .NotMapped
      else .error .NotMapped
    else .error .NotMapped
  else .error .InvalidVAddr

/-- Postcondition of the C8 round trip: `map_4k` succeeds with exactly
the one PTE installed; `walk` then reports the 4 KiB mapping at level 1;
`unmap` returns the frame and leaves the PTE zero (not present); a
second `unmap` reports `NotMapped`. -/
def c8Post (m : PTMem) (root v p t1 : Nat) (attr : VMAttr) : Prop :=
  map4k m root v p attr = .ok (ptUpd m t1 (ptIdx v) (pteNewPage p attr)) ∧
  walk (ptUpd m t1 (ptIdx v) (pteNewPage p attr)) root v
    = .ok (.MappedPage p .Small 1) ∧
  unmap (ptUpd m t1 (ptIdx v) (pteNewPage p attr)) root v
    = .ok (p, .Small,
        ptUpd (ptUpd m t1 (ptIdx v) (pteNewPage p attr)) t1 (ptIdx v) 0) ∧
  entPresent
    (ptUpd (ptUpd m t1 (ptIdx v) (pteNewPage p attr)) t1 (ptIdx v) 0
      t1 (ptIdx v)) = false ∧
  unmap (ptUpd (ptUpd m t1 (ptIdx v) (pteNewPage p attr)) t1 (ptIdx v) 0)
      root v
    = .error .NotMapped

/-- Spec scenario 3 memory: PML4 at `0x1000`, PDPT at `0x2000`, PD at
`0x3000`, PT at `0x4000`; the chain for vaddr `0x40_0000` (indices
0/0/2/0) is pre-installed as present table entries (flag bits
P|W|U = 7, as `new_table` writes them), the PT empty. -/
def c8Mem : PTMem := fun t i =>
  if t = 0x1000 ∧ i = 0 then 0x2000 ||| 7
  else if t = 0x2000 ∧ i = 0 then 0x3000 ||| 7
  else if t = 0x3000 ∧ i = 2 then 0x4000 ||| 7
  else 0

/-- Read-write user attributes for the scenario (`attr = RW`). -/
def c8Attr : VMAttr :=
  { rights := 3, cache := .WriteBack, global := false, user := true }

/-- Ready-queue entry of the per-core EDF scheduler, from
`kernel/src/scheduler/executor.rs` (`struct DeadlineEntry`); ordered by
the derived lexicographic order (deadline, then task id). -/
structure DeadlineEntry where
  deadline : Nat
  task_id : Nat
deriving DecidableEq, Repr

/-- The derived `Ord`/`PartialOrd` order on `DeadlineEntry`:
lexicographic on `(deadline, task_id)`. -/
def dLe (a b : DeadlineEntry) : Prop :=
  a.deadline < b.deadline ∨
    (a.deadline = b.deadline ∧ a.task_id ≤ b.task_id)

instance : DecidableRel dLe := fun a b => by
  unfold dLe; infer_instance

/-- Capacity of the per-core ready heap (`MAX_TCB_PER_CORE`). -/
def MAX_TCB_PER_CORE : Nat := 64

/-- Scheduler state touched by `Executor::preempt`: the bounded min-heap
`task_queue` (modelled as its sorted element sequence, head = the
heap's `peek`) and `current_task`.  The `tasks` map holds the Rust
futures themselves and is outside the pure model. -/
structure ExecSt where
  queue : List DeadlineEntry
  current : Option DeadlineEntry
deriving DecidableEq, Repr

/-- Heap `push`: ordered insertion while below capacity; `heapless`
returns `Err` on a full heap and `preempt` discards that error
(`let _ = queue.push(..)`), dropping the entry. -/
def heapPush (q : List DeadlineEntry) (e : DeadlineEntry) :
    List DeadlineEntry :=
  if q.length < MAX_TCB_PER_CORE then List.orderedInsert dLe e q else q

/-- Counterpart of `Executor::preempt`
(`kernel/src/scheduler/executor.rs`) up to the dispatch boundary.  The
second component is the entry handed to `handle_waker_task` (which
polls the dispatched task's future — outside the pure model); the
returned state is the executor state at that call: on a switch,
`current_task` has been set to the heap minimum, which was popped, and
the outgoing current pushed back.  With no current task, `preempt`
falls into `run_ready_tasks`, which pops and dispatches every queued
entry in heap order. -/
def preemptStep (s : ExecSt) : ExecSt × List DeadlineEntry :=
  match s.current with
  | none => (⟨[], none⟩, s.queue)
  | some cur =>
    match s.queue with
    | [] => (s, [])
    | e :: rest =>
      if e.deadline < cur.deadline then
        (⟨heapPush rest cur, some e⟩, [e])
      else (s, [])

/-- Scenario-6 current task T1, deadline 100. -/
def c9T1 : DeadlineEntry := ⟨100, 1⟩

/-- Scenario-6 woken task T2, deadline 50. -/
def c9T2 : DeadlineEntry := ⟨50, 2⟩

theorem hupd_same (h : Heap) (a : Addr) (c : CapRaw) : hupd h a c a = c := by
  simp [hupd]

theorem hupd_other (h : Heap) (a : Addr) (c : CapRaw) (x : Addr) (hx : x ≠ a) :
    hupd h a c x = h x := by
  simp [hupd, hx]

/-- C1: on x86-64 the message registers MR1..MR6 do NOT access the
trap-frame slots of (RDI, RSI, R10, R8, R9, R15).  The `registers` array
order is rax, rbx, rcx, rdx, rsi, rdi, rbp, r8..r15, so the index
constants (0, 1, 9, 10, 11, 12) address (RAX, RBX, R10, R11, R12, R13);
the claimed registers sit at indices (5, 4, 9, 7, 8, 14).  Only MR3
matches.  A `set_mr`/`get_mr` pair at `Tcb::MR1` therefore stores into
and reads back from the saved RAX slot, not RDI. -/
theorem c1_mr_indices_hit_wrong_registers :
    trapRegisterOrder.get? Tcb.MR1 = some Reg.rax ∧
    trapRegisterOrder.get? Tcb.MR2 = some Reg.rbx ∧
    trapRegisterOrder.get? Tcb.MR3 = some Reg.r10 ∧
    trapRegisterOrder.get? Tcb.MR4 = some Reg.r11 ∧
    trapRegisterOrder.get? Tcb.MR5 = some Reg.r12 ∧
    trapRegisterOrder.get? Tcb.MR6 = some Reg.r13 ∧
    trapRegisterOrder.get? 5 = some Reg.rdi ∧
    trapRegisterOrder.get? 4 = some Reg.rsi ∧
    trapRegisterOrder.get? 7 = some Reg.r8 ∧
    trapRegisterOrder.get? 8 = some Reg.r9 ∧
    trapRegisterOrder.get? 14 = some Reg.r15 ∧
    Reg.rax ≠ Reg.rdi ∧
    (∀ r : Regs, ∀ v : Nat,
      getMr (setMr r Tcb.MR1 v) Tcb.MR1 = v ∧
      getMr (setMr r Tcb.MR1 v) 5 = getMr r 5) := by
  refine ⟨rfl, rfl, rfl, rfl, rfl, rfl, rfl, rfl, rfl, rfl, rfl, by decide, ?_⟩
  intro r v
  constructor
  · simp [getMr, setMr, Tcb.MR1]
  · simp [getMr, setMr, Tcb.MR1]

/-- C10: the kernel's own writes to MR1 violate `set_mr`'s asserted
precondition `0 < idx < 15`, because `Tcb::MR1 = 0`.  Every call
`set_mr(Tcb::MR1, v)` — in `do_ipc_transfer`, in the `identify`
implementations, and in `reply_from_kernel_*` — passes index 0, so the
debug assertion fires on exactly those paths.  (Indices MR2..MR6 do
satisfy the bound.) -/
theorem c10_set_mr_assert_violated_at_mr1 :
    ¬ setMrPre Tcb.MR1 ∧
    setMrPre Tcb.MR2 ∧ setMrPre Tcb.MR3 ∧ setMrPre Tcb.MR4 ∧
    setMrPre Tcb.MR5 ∧ setMrPre Tcb.MR6 := by
  decide

/-- C3: the spec scenario `retype(Frame, 12, 16 Null slots)` on a fresh
`2^16`-byte untyped FAILS with `OutOfMemory` instead of succeeding.
The `alignup!` macro computes `(0 + 2^12 - 1) & (2^12 - 1) = 4095`
(it masks to the low bits instead of clearing them), so
`required = 4095 + 16 * 4096 = 69631 > 65536`. -/
theorem c3_retype_scenario_out_of_memory :
    retype utScenario .Frame 12 (List.replicate 16 CapRaw.default)
      = .err .OutOfMemory ∧
    alignup 0 12 = 4095 := by
  constructor
  · rfl
  · rfl

/-- C4: a successful retype leaves the minted capability MDB-isolated.
`retype(Frame, 12, [one Null slot])` on the scenario untyped succeeds
(required = 4095 + 4096 = 8191 ≤ 65536) and the capability written to
the destination slot has `mdb_prev = mdb_next = None`: `retype` never
calls `mdb_insert_after`, so no derivation chain from the untyped's
slot can reach it. -/
theorem c4_retype_mints_isolated_caps :
    retype utScenario .Frame 12 [CapRaw.default]
      = .ok (16 ||| (8191 <<< 6))
          [frameMint (0x10000 + 4095) .Small false
            (CapRights.READ ||| CapRights.WRITE)] ∧
    (frameMint (0x10000 + 4095) .Small false
      (CapRights.READ ||| CapRights.WRITE)).mdb_prev = none ∧
    (frameMint (0x10000 + 4095) .Small false
      (CapRights.READ ||| CapRights.WRITE)).mdb_next = none := by
  refine ⟨?_, rfl, rfl⟩
  rfl

/-- C6: retyping an untyped into a CNode with `user_bits = 7`
(`slot_bit_width = 6`, radix 1) ABORTS the kernel: the CNode arm of
`retype` computes `guard_bits = 64 - radix = 63`, and `CNodeCap::mint`'s
`assert!(radix_sz + guard_sz <= 32)` fails (1 + 63 > 32).  The same
happens for every `user_bits > slot_bit_width`; for
`user_bits = slot_bit_width` the minted guard length is
`(64 - 0) & 0x3F = 0`, not `32 - radix`. -/
theorem c6_retype_cnode_aborts :
    retype utScenario .CNode 7 [CapRaw.default] = .panicked ∧
    retype utScenario .CNode 6 [CapRaw.default]
      = .ok (16 ||| (127 <<< 6))
          [{ CapRaw.defaultWithType .CNode with
               paddr := 0x10000 + 63, arg1 := 0, arg2 := 0,
               rights := CapRights.CONTROL }] := by
  constructor
  · rfl
  · rfl

theorem CapRaw.set_next_none_eq (c : CapRaw) (hc : c.mdb_next = none) :
    { c with mdb_next := none } = c := by
  cases c
  simp_all

theorem nullify_prev (c : CapRaw) :
    (nullifyKeepLinks c).mdb_prev = c.mdb_prev := rfl

theorem nullify_next (c : CapRaw) :
    (nullifyKeepLinks c).mdb_next = c.mdb_next := rfl

theorem nullify_links_none (c : CapRaw) :
    { nullifyKeepLinks c with mdb_prev := none, mdb_next := none }
      = CapRaw.default := by
  cases c
  simp [nullifyKeepLinks, CapRaw.default]

theorem revokeAux_none (h : Heap) (fuel : Nat) :
    revokeAux h none fuel = h := by
  cases fuel <;> rfl

theorem isMdbChain_congr (h h' : Heap) (l : List Addr) :
    ∀ (pred : Addr) (cur : Option Addr), (∀ x ∈ l, h' x = h x) →
      isMdbChain h' pred cur l = isMdbChain h pred cur l := by
  induction l with
  | nil => intro pred cur _; rfl
  | cons a l ih =>
    intro pred cur hh
    have ha : h' a = h a := hh a (by simp)
    simp only [isMdbChain, ha]
    rw [ih a ((h a).mdb_next) (fun x hx => hh x (by simp [hx]))]

/-- Pointwise effect of one `revoke` iteration (erase, then
`mdb_remove`) at address `a`, whose `mdb_prev` is the current anchor
`p`. -/
theorem revokeStep_at (h : Heap) (a p : Addr)
    (hap : (h a).mdb_prev = some p) (hpa : p ≠ a)
    (hq : ∀ q, (h a).mdb_next = some q → q ≠ a ∧ q ≠ p) :
    mdbRemove (hupd h a (nullifyKeepLinks (h a))) a a = CapRaw.default ∧
    mdbRemove (hupd h a (nullifyKeepLinks (h a))) a p
      = { h p with mdb_next := (h a).mdb_next } ∧
    (∀ x, x ≠ a → x ≠ p → (h a).mdb_next ≠ some x →
      mdbRemove (hupd h a (nullifyKeepLinks (h a))) a x = h x) ∧
    (∀ q, (h a).mdb_next = some q →
      mdbRemove (hupd h a (nullifyKeepLinks (h a))) a q
        = { h q with mdb_prev := some p }) := by
  cases hn : (h a).mdb_next with
  | none =>
    refine ⟨?_, ?_, ?_, ?_⟩
    · simp [mdbRemove, hupd_same, nullify_prev, nullify_next, hap, hn,
        nullify_links_none]
    · simp only [mdbRemove, hupd_same, nullify_prev, nullify_next, hap, hn]
      rw [hupd_other _ _ _ p hpa, hupd_same, hupd_other _ _ _ p hpa]
    · intro x hxa hxp _
      simp only [mdbRemove, hupd_same, nullify_prev, nullify_next, hap, hn]
      rw [hupd_other _ _ _ x hxa, hupd_other _ _ _ x hxp,
        hupd_other _ _ _ x hxa]
    · intro q hqe
      simp at hqe
  | some q =>
    obtain ⟨hqa, hqp⟩ := hq q hn
    refine ⟨?_, ?_, ?_, ?_⟩
    · simp [mdbRemove, hupd_same, nullify_prev, nullify_next, hap, hn,
        nullify_links_none]
    · simp only [mdbRemove, hupd_same, nullify_prev, nullify_next, hap, hn]
      rw [hupd_other _ _ _ p hpa, hupd_other _ _ _ p (Ne.symm hqp),
        hupd_same, hupd_other _ _ _ p hpa]
    · intro x hxa hxp hxq
      have hxq' : x ≠ q := fun e => hxq (by rw [e])
      simp only [mdbRemove, hupd_same, nullify_prev, nullify_next, hap, hn]
      rw [hupd_other _ _ _ x hxa, hupd_other _ _ _ x hxq',
        hupd_other _ _ _ x hxp, hupd_other _ _ _ x hxa]
    · intro q' hq'
      obtain rfl : q = q' := Option.some.inj hq'
      simp only [mdbRemove, hupd_same, nullify_prev, nullify_next, hap, hn]
      rw [hupd_other _ _ _ q hqa, hupd_same,
        hupd_other _ _ _ q hqp, hupd_other _ _ _ q hqa]

/-- Main induction for C5: running the revoke loop over a well-formed
forward chain `l` anchored at `p` nullifies and isolates exactly the
chain elements, clears the anchor's forward link, and touches nothing
else. -/
theorem revokeAux_chain (l : List Addr) :
    ∀ (h : Heap) (p : Addr),
      isMdbChain h p ((h p).mdb_next) l = true →
      (p :: l).Nodup →
      (∀ x ∈ l, revokeAux h ((h p).mdb_next) l.length x = CapRaw.default) ∧
      revokeAux h ((h p).mdb_next) l.length p
        = { h p with mdb_next := none } ∧
      (∀ b, b ≠ p → b ∉ l →
        revokeAux h ((h p).mdb_next) l.length b = h b) := by
  induction l with
  | nil =>
    intro h p hc _
    have hnone : (h p).mdb_next = none := by
      simpa [isMdbChain] using hc
    rw [hnone]
    refine ⟨by simp, ?_, fun b _ _ => rfl⟩
    show h p = { h p with mdb_next := none }
    exact (CapRaw.set_next_none_eq (h p) hnone).symm
  | cons a l ih =>
    intro h p hc hnd
    have hc' : (h p).mdb_next = some a ∧ (h a).mdb_prev = some p ∧
        isMdbChain h a ((h a).mdb_next) l = true := by
      simpa [isMdbChain, Bool.and_eq_true, decide_eq_true_eq,
        and_assoc] using hc
    obtain ⟨hpn, hap, hcl⟩ := hc'
    have hndp := List.nodup_cons.mp hnd
    have hndal := List.nodup_cons.mp hndp.2
    have hpa : p ≠ a := fun e => hndp.1 (by simp [e])
    have hpl : p ∉ l := fun hm => hndp.1 (by simp [hm])
    have hal : a ∉ l := hndal.1
    have hndpl : (p :: l).Nodup :=
      List.nodup_cons.mpr ⟨fun hm => hndp.1 (by simp [hm]), hndal.2⟩
    have hq : ∀ q, (h a).mdb_next = some q → q ≠ a ∧ q ≠ p := by
      intro q hqe
      cases l with
      | nil =>
        exfalso
        have : (h a).mdb_next = none := by simpa [isMdbChain] using hcl
        simp [this] at hqe
      | cons q' l'' =>
        have he : (h a).mdb_next = some q' := by
          simp only [isMdbChain, Bool.and_eq_true, decide_eq_true_eq] at hcl
          exact hcl.1.1
        have hqq' : q = q' := by
          have := he.symm.trans hqe
          simpa using this.symm
        subst hqq'
        exact ⟨fun e => hal (by simp [e]), fun e => hpl (by simp [e])⟩
    obtain ⟨s1, s2, s3, s4⟩ := revokeStep_at h a p hap hpa hq
    have hstep : revokeAux h ((h p).mdb_next) (a :: l).length
        = revokeAux (mdbRemove (hupd h a (nullifyKeepLinks (h a))) a)
            ((h a).mdb_next) l.length := by
      rw [hpn]; rfl
    have hchain2 : isMdbChain
        (mdbRemove (hupd h a (nullifyKeepLinks (h a))) a) p
        ((mdbRemove (hupd h a (nullifyKeepLinks (h a))) a p).mdb_next)
        l = true := by
      rw [s2]
      cases l with
      | nil =>
        have : (h a).mdb_next = none := by simpa [isMdbChain] using hcl
        simp [isMdbChain, this]
      | cons q l'' =>
        simp only [isMdbChain, Bool.and_eq_true, decide_eq_true_eq] at hcl
        obtain ⟨⟨hnq, _⟩, hcl''⟩ := hcl
        have hql'' := List.nodup_cons.mp hndal.2
        have hqa : q ≠ a := fun e => hal (by simp [e])
        have hqp : q ≠ p := fun e => hpl (by simp [e])
        have e4 := s4 q hnq
        simp only [isMdbChain, Bool.and_eq_true, decide_eq_true_eq]
        refine ⟨⟨hnq, ?_⟩, ?_⟩
        · rw [e4]
        · have hnext_q :
              (mdbRemove (hupd h a (nullifyKeepLinks (h a))) a q).mdb_next
                = (h q).mdb_next := by rw [e4]
          rw [hnext_q]
          rw [isMdbChain_congr h
            (mdbRemove (hupd h a (nullifyKeepLinks (h a))) a) l'' q
            ((h q).mdb_next) ?_]
          · exact hcl''
          · intro x hx
            refine s3 x ?_ ?_ ?_
            · exact fun e => hal (List.mem_cons_of_mem q (e ▸ hx))
            · exact fun e => hpl (List.mem_cons_of_mem q (e ▸ hx))
            · rw [hnq]
              intro e
              have hqx : q = x := by simpa using e
              exact hql''.1 (hqx ▸ hx)
    obtain ⟨i1, i2, i3⟩ :=
      ih (mdbRemove (hupd h a (nullifyKeepLinks (h a))) a) p hchain2 hndpl
    rw [s2] at i1 i2 i3
    refine ⟨?_, ?_, ?_⟩
    · intro x hx
      rw [hstep]
      rcases List.mem_cons.mp hx with hxa | hxl
      · subst hxa
        have hlast := i3 x (Ne.symm hpa) hal
        rw [hlast, s1]
      · exact i1 x hxl
    · rw [hstep, i2]
    · intro b hbp hbal
      have hba : b ≠ a := fun e => hbal (by simp [e])
      have hbl : b ∉ l := fun hm => hbal (by simp [hm])
      rw [hstep, i3 b hbp hbl]
      refine s3 b hba hbp ?_
      cases l with
      | nil =>
        have : (h a).mdb_next = none := by simpa [isMdbChain] using hcl
        simp [this]
      | cons q l'' =>
        have he : (h a).mdb_next = some q := by
          simp only [isMdbChain, Bool.and_eq_true, decide_eq_true_eq] at hcl
          exact hcl.1.1
        rw [he]
        intro e
        have hqb : q = b := by simpa using e
        exact hbl (by simp [← hqb])

/-- C5: for every MDB node `n` whose forward chain is the finite acyclic
(well-formed, per the data model's doubly-linked invariant) chain `l`,
`revoke` (with fuel `l.length`, enough for the whole chain) nullifies
every reachable descendant to the all-zero `CapRaw` (type `Null`, rights
`NONE`, zero paddr/args, both links absent, hence unlinked), does not
touch `n` except for clearing `n.mdb_next`, changes no other slot, and
is idempotent: a second `revoke` with any fuel changes no slot. -/
theorem c5_revoke_correct (h : Heap) (n : Addr) (l : List Addr)
    (hc : isMdbChain h n ((h n).mdb_next) l = true)
    (hnd : (n :: l).Nodup) :
    (∀ x ∈ l, revoke h n l.length x = CapRaw.default) ∧
    revoke h n l.length n = { h n with mdb_next := none } ∧
    (∀ b, b ≠ n → b ∉ l → revoke h n l.length b = h b) ∧
    (∀ fuel, revoke (revoke h n l.length) n fuel = revoke h n l.length) := by
  obtain ⟨i1, i2, i3⟩ := revokeAux_chain l h n hc hnd
  refine ⟨i1, i2, i3, ?_⟩
  intro fuel
  unfold revoke
  have hnext : (revokeAux h ((h n).mdb_next) l.length n).mdb_next = none := by
    rw [i2]
  rw [hnext]
  exact revokeAux_none _ fuel

theorem c5_revoke_correct_witness :
    (∀ x ∈ [1, 2], revoke c5Heap 0 2 x = CapRaw.default) ∧
    revoke c5Heap 0 2 0 = { c5Heap 0 with mdb_next := none } ∧
    (∀ b, b ≠ 0 → b ∉ [1, 2] → revoke c5Heap 0 2 b = c5Heap b) ∧
    (∀ fuel, revoke (revoke c5Heap 0 2) 0 fuel = revoke c5Heap 0 2) :=
  c5_revoke_correct c5Heap 0 [1, 2] (by decide) (by decide)

/-- C7: in the two-level CSpace of spec scenario 1 (root radix 4 /
guard 0, child radix 8 / guard_bits 4 / guard `0b1010` in slot 5),
resolving `cptr = (0x5 << 28) | (0xA << 24) | (0x17 << 16)` at depth 32
yields the slot at index `0x17` of the child CNode (with 16 address
bits left over, which `resolve` hands back to the caller); changing the
child's guard to `0b1011` makes the same resolution fail with
`LookupError`. -/
theorem c7_resolve_scenario :
    resolveInternal (c7Mem 0b1010) c7Cptr c7RootEntry 32 33
      = .ok (c7ChildPaddr + 0x17 * CNODE_ENTRY_SZ, 16) ∧
    resolveInternal (c7Mem 0b1011) c7Cptr c7RootEntry 32 33
      = .error .LookupError := by
  constructor
  · rfl
  · rfl

/-- C2: `send_ipc(blocking, do_call = false, badge = 0x42, .., A, ep)`
on an endpoint in `Recv` with head receiver B dequeues B and sets the
endpoint back to `Idle`, but B's MR1 afterwards is A's register-0 value
(here 0), NOT the badge `0x42`: `do_ipc_transfer` writes the badge to
MR1 and then the register-copy loop (indices `Tcb::MR1 + 0..3` = 0..3)
overwrites it with the sender's register 0.  The loop also never
touches MR3 (index 9) or MR4 (index 10): B's MR3 keeps its old value 7
instead of receiving A's 5.  B is left `Running` only when no scheduler
is registered; with a scheduler present (the normal boot state) the
code sets B `Inactive` immediately before calling `wake`, which
requires a Blocked state and therefore leaves B `Inactive`. -/
theorem c2_send_ipc_badge_overwritten :
    (sendIpc true false 0x42 false false 0 0x500 false c2Machine).regOf 1
        Tcb.MR1 = some 0 ∧
    (0 : Nat) ≠ 0x42 ∧
    (sendIpc true false 0x42 false false 0 0x500 false c2Machine).regOf 1
        Tcb.MR3 = some 7 ∧
    (7 : Nat) ≠ 5 ∧
    (sendIpc true false 0x42 false false 0 0x500 false
        c2Machine).endpointStateOf = some .Idle ∧
    (sendIpc true false 0x42 false false 0 0x500 false
        c2Machine).threadStateOf 1 = some .Running ∧
    (sendIpc true false 0x42 false false 0 0x500 true
        c2Machine).threadStateOf 1 = some .Inactive := by
  refine ⟨rfl, by decide, rfl, by decide, rfl, rfl, rfl⟩

theorem land_lor_right (a b c : Nat) :
    (a ||| b) &&& c = (a &&& c) ||| (b &&& c) := by
  apply Nat.eq_of_testBit_eq
  intro i
  simp only [Nat.testBit_land, Nat.testBit_lor]
  cases a.testBit i <;> cases b.testBit i <;> cases c.testBit i <;> rfl

theorem buildFlags_and_one (a : VMAttr) : buildFlags a &&& 1 = 1 := by
  obtain ⟨r, c, g, u⟩ := a
  cases c <;> simp only [buildFlags] <;> split_ifs <;> decide

theorem buildFlags_and_mask (a : VMAttr) :
    buildFlags a &&& ADDR_MASK = 0 := by
  obtain ⟨r, c, g, u⟩ := a
  cases c <;> simp only [buildFlags] <;> split_ifs <;> decide

theorem pteNewPage_present (p : Nat) (a : VMAttr) :
    pteNewPage p a &&& 1 = 1 := by
  unfold pteNewPage
  rw [land_lor_right, Nat.land_assoc]
  rw [show ADDR_MASK &&& 1 = 0 from by decide]
  rw [Nat.and_zero, buildFlags_and_one]
  decide

theorem mask_testBit (i : Nat) :
    ADDR_MASK.testBit i = (decide (12 ≤ i) && decide (i < 52)) := by
  have h1 : ADDR_MASK = 2 ^ 12 * (2 ^ 40 - 1) := by decide
  rw [h1, Nat.testBit_mul_pow_two, Nat.testBit_two_pow_sub_one]
  rcases Nat.lt_or_ge i 12 with h | h
  · simp [Nat.not_le.mpr h]
  · have h2 : (i - 12 < 40) ↔ (i < 52) := by omega
    simp [h, h2]

theorem pteNewPage_paddr (p : Nat) (a : VMAttr)
    (hal : p &&& 4095 = 0) (hlt : p < 2 ^ 52) :
    pteNewPage p a &&& ADDR_MASK = p := by
  unfold pteNewPage
  rw [land_lor_right, buildFlags_and_mask, Nat.or_zero, Nat.land_assoc,
    Nat.and_self]
  have hmod : p % 2 ^ 12 = 0 := by
    have h := Nat.and_pow_two_sub_one_eq_mod p 12
    norm_num at h ⊢
    omega
  apply Nat.eq_of_testBit_eq
  intro i
  rw [Nat.testBit_land, mask_testBit]
  rcases Nat.lt_or_ge i 12 with h12 | h12
  · have hbit : p.testBit i = false := by
      have hmt := Nat.testBit_mod_two_pow p 12 i
      rw [hmod] at hmt
      simp [h12] at hmt
      simp [hmt]
    simp [hbit]
  · rcases Nat.lt_or_ge i 52 with h52 | h52
    · simp [h12, h52]
    · have hbit : p.testBit i = false := by
        apply Nat.testBit_lt_two_pow
        calc p < 2 ^ 52 := hlt
        _ ≤ 2 ^ i := Nat.pow_le_pow_right (by norm_num) h52
      simp [hbit, Nat.not_lt.mpr h52]

theorem ptUpd_same (m : PTMem) (t i v : Nat) : ptUpd m t i v t i = v := by
  simp [ptUpd]

theorem ptUpd_other (m : PTMem) (t i v tx ix : Nat)
    (h : ¬ (tx = t ∧ ix = i)) : ptUpd m t i v tx ix = m tx ix := by
  simp [ptUpd, h]

theorem entPresent_newPage (p : Nat) (a : VMAttr) :
    entPresent (pteNewPage p a) = true := by
  have h := pteNewPage_present p a
  simp [entPresent, h]

theorem entPaddr_newPage (p : Nat) (a : VMAttr)
    (hpa : p &&& 4095 = 0) (hp52 : p < 2 ^ 52) :
    entPaddr (pteNewPage p a) = p := by
  unfold entPaddr
  exact pteNewPage_paddr p a hpa hp52

/-- C8: for every canonical 4 KiB-aligned virtual address whose
PML4/PDPT/PD chain is pre-installed as present table (non-page) entries
with the PTE absent, and every 4 KiB-aligned physical address below
`2^52` (the architectural physical-address width, and the width of
`ADDR_MASK`): `map_4k` succeeds installing the PTE; `walk` then returns
`MappedPage{paddr, Small, 1}`; `unmap` returns `(paddr, Small)` and
zeroes the PTE; a second `unmap` returns `NotMapped`.  `t3`, `t2`, `t1`
are the three table addresses of the walk; the three `hd*` hypotheses
say the written PTE cell is not one of the three traversed interior
cells (distinct tables, as produced by `install_table`). -/
theorem c8_map_walk_unmap (m : PTMem) (root v p t3 t2 t1 : Nat)
    (attr : VMAttr)
    (hcanon : isCanonical v = true)
    (hva : v &&& 4095 = 0) (hpa : p &&& 4095 = 0) (hp52 : p < 2 ^ 52)
    (ht3 : entPaddr (m root (pml4Idx v)) = t3)
    (ht2 : entPaddr (m t3 (pdptIdx v)) = t2)
    (ht1 : entPaddr (m t2 (pdIdx v)) = t1)
    (h4 : entPresent (m root (pml4Idx v)) = true)
    (h3p : entPresent (m t3 (pdptIdx v)) = true)
    (h3t : entIsPage (m t3 (pdptIdx v)) = false)
    (h2p : entPresent (m t2 (pdIdx v)) = true)
    (h2t : entIsPage (m t2 (pdIdx v)) = false)
    (h1a : entPresent (m t1 (ptIdx v)) = false)
    (hd4 : ¬ (root = t1 ∧ pml4Idx v = ptIdx v))
    (hd3 : ¬ (t3 = t1 ∧ pdptIdx v = ptIdx v))
    (hd2 : ¬ (t2 = t1 ∧ pdIdx v = ptIdx v)) :
    c8Post m root v p t1 attr := by
  have hva' : (v &&& 4095 == 0) = true := by simp [hva]
  have hpa' : (p &&& 4095 == 0) = true := by simp [hpa]
  have h1a' : ¬ (entPresent (m t1 (ptIdx v)) = true) := by simp [h1a]
  have r4 : ∀ w, ptUpd m t1 (ptIdx v) w root (pml4Idx v)
      = m root (pml4Idx v) := fun w => ptUpd_other m _ _ w _ _ hd4
  have r3 : ∀ w, ptUpd m t1 (ptIdx v) w t3 (pdptIdx v)
      = m t3 (pdptIdx v) := fun w => ptUpd_other m _ _ w _ _ hd3
  have r2 : ∀ w, ptUpd m t1 (ptIdx v) w t2 (pdIdx v)
      = m t2 (pdIdx v) := fun w => ptUpd_other m _ _ w _ _ hd2
  refine ⟨?_, ?_, ?_, ?_, ?_⟩
  · simp only [map4k, hcanon, hva', hpa', if_true, h4, ht3, h3p, h3t,
      Bool.false_eq_true, if_false, h2p, ht2, h2t, ht1, h1a', if_true]
  · simp only [walk, hcanon, if_true, r4, h4, ht3, r3, h3p, h3t,
      Bool.false_eq_true, if_false, ht2, r2, h2p, h2t, ht1, ptUpd_same,
      entPresent_newPage]
    rw [entPaddr_newPage p attr hpa hp52]
  · simp only [unmap, hcanon, if_true, r4, h4, ht3, r3, h3p, h3t,
      Bool.false_eq_true, if_false, ht2, r2, h2p, h2t, ht1, ptUpd_same,
      entPresent_newPage]
    rw [entPaddr_newPage p attr hpa hp52]
  · simp [ptUpd_same, entPresent]
  · have r4' : ∀ w w2, ptUpd (ptUpd m t1 (ptIdx v) w) t1 (ptIdx v) w2
        root (pml4Idx v) = m root (pml4Idx v) := by
      intro w w2
      rw [ptUpd_other _ _ _ _ _ _ hd4, ptUpd_other _ _ _ _ _ _ hd4]
    have r3' : ∀ w w2, ptUpd (ptUpd m t1 (ptIdx v) w) t1 (ptIdx v) w2
        t3 (pdptIdx v) = m t3 (pdptIdx v) := by
      intro w w2
      rw [ptUpd_other _ _ _ _ _ _ hd3, ptUpd_other _ _ _ _ _ _ hd3]
    have r2' : ∀ w w2, ptUpd (ptUpd m t1 (ptIdx v) w) t1 (ptIdx v) w2
        t2 (pdIdx v) = m t2 (pdIdx v) := by
      intro w w2
      rw [ptUpd_other _ _ _ _ _ _ hd2, ptUpd_other _ _ _ _ _ _ hd2]
    simp only [unmap, hcanon, if_true, r4', h4, ht3, r3', h3p, h3t,
      Bool.false_eq_true, if_false, ht2, r2', h2p, h2t, ht1, ptUpd_same]
    simp [entPresent]

theorem c8_map_walk_unmap_witness :
    c8Post c8Mem 0x1000 0x400000 0x200000 0x4000 c8Attr :=
  c8_map_walk_unmap c8Mem 0x1000 0x400000 0x200000 0x2000 0x3000 0x4000
    c8Attr (by decide) (by decide) (by decide) (by decide) (by decide)
    (by decide) (by decide) (by decide) (by decide) (by decide) (by decide)
    (by decide) (by decide) (by decide) (by decide) (by decide)

/-- C9: with a current entry `c` and a non-empty ready heap (sorted
sequence `e :: rest`, so `e` is the heap minimum — the first conjunct),
`preempt` context-switches to (dispatches, and makes current) the heap
minimum `e` exactly when `e.deadline < c.deadline`, re-inserting the
outgoing current `c` into the heap (the post-heap is a permutation of
`c :: rest` and contains `c`); otherwise it dispatches nothing and
leaves the heap and current unchanged. -/
theorem c9_preempt_edf (c e : DeadlineEntry) (rest : List DeadlineEntry)
    (hsorted : (e :: rest).Sorted dLe)
    (hlen : (e :: rest).length ≤ MAX_TCB_PER_CORE) :
    (∀ x ∈ e :: rest, dLe e x) ∧
    (if e.deadline < c.deadline then
        preemptStep ⟨e :: rest, some c⟩
          = (⟨heapPush rest c, some e⟩, [e]) ∧
        c ∈ heapPush rest c ∧
        (heapPush rest c).Perm (c :: rest)
      else preemptStep ⟨e :: rest, some c⟩ = (⟨e :: rest, some c⟩, [])) := by
  have hrlen : rest.length < MAX_TCB_PER_CORE := by
    simp [List.length_cons] at hlen
    omega
  have hpush : heapPush rest c = List.orderedInsert dLe c rest := by
    simp [heapPush, hrlen]
  constructor
  · intro x hx
    rcases List.mem_cons.mp hx with rfl | hx
    · exact Or.inr ⟨rfl, le_refl _⟩
    · exact (List.sorted_cons.mp hsorted).1 x hx
  · split_ifs with hlt
    · refine ⟨?_, ?_, ?_⟩
      · simp [preemptStep, hlt]
      · rw [hpush]
        have hperm := List.perm_orderedInsert dLe c rest
        exact hperm.mem_iff.mpr (by simp)
      · rw [hpush]
        exact List.perm_orderedInsert dLe c rest
    · simp [preemptStep, hlt]

theorem c9_preempt_edf_witness :
    (∀ x ∈ c9T2 :: [], dLe c9T2 x) ∧
    (if c9T2.deadline < c9T1.deadline then
        preemptStep ⟨c9T2 :: [], some c9T1⟩
          = (⟨heapPush [] c9T1, some c9T2⟩, [c9T2]) ∧
        c9T1 ∈ heapPush [] c9T1 ∧
        (heapPush [] c9T1).Perm (c9T1 :: [])
      else preemptStep ⟨c9T2 :: [], some c9T1⟩
          = (⟨c9T2 :: [], some c9T1⟩, [])) :=
  c9_preempt_edf c9T1 c9T2 []
    (by simp [List.sorted_singleton]) (by decide)

end Chick
